import Mathlib

/-!
Verification of the ticket-form frontend (`frontend/app.js` and its
follow-up-enabled variant): the identity parser `parseUserId`, the draft
session client `confirmUser`, and the ticket submission client `submitForm`.

The JavaScript is shallowly embedded: DOM reads become explicit string
inputs, each `fetch` becomes an explicit `Fetch` result supplied by the
environment (network failure, or a response with an HTTP-ok flag, an
optional `error` field and a payload), `prompt` becomes a stream of
optional answers (`none` models the user cancelling), and the module-level
mutable variables `userId` / `confirmed` become an explicit `ClientState`
threaded through the operations.  Observable effects (network calls made,
prompt texts shown, the final alert/status outcome) are returned as data.
-/

namespace TicketForm

/-! ## Identity parser -/

/-- JavaScript `String.prototype.trim`: drop whitespace from both ends
(restricted to the ASCII whitespace characters, which are the only ones
the surrounding code can produce). -/
def jsTrim (cs : List Char) : List Char :=
  ((cs.dropWhile Char.isWhitespace).reverse.dropWhile Char.isWhitespace).reverse

/-- JavaScript `String.prototype.toLowerCase` on the ASCII range. -/
def jsToLower (cs : List Char) : List Char := cs.map Char.toLower

/-- String-level version of jsTrim. -/
def jsTrimStr (s : String) : String := ⟨jsTrim s.data⟩

/-- Numeric value of a digit character, as JavaScript `Number` sees one
digit of the regex capture. -/
def digitVal (c : Char) : Nat := c.toNat - 48

/-- Value of a digit string, most significant first (JavaScript
`Number(m[1])` on the 1–2 digit capture). -/
def digitsVal (ds : List Char) : Nat :=
  ds.foldl (fun a c => 10 * a + digitVal c) 0

/-- Hand-rolled matcher for the anchored regex `^user(\d{1,2})$` followed by
the range check of `parseUserId`: the character list must be exactly
`user` plus one or two digits, and the numeric value must lie in [1,99]
(`if (id < 1 || id > 99) return null`). -/
def matchUser (cs : List Char) : Option Nat :=
  if cs.take 4 = ['u', 's', 'e', 'r'] then
    if 1 ≤ (cs.drop 4).length ∧ (cs.drop 4).length ≤ 2 ∧
        (cs.drop 4).all Char.isDigit then
      if digitsVal (cs.drop 4) < 1 ∨ 99 < digitsVal (cs.drop 4) then none
      else some (digitsVal (cs.drop 4))
    else none
  else none

/-- Embedding of `parseUserId` (app.js lines 4–11): trim, lowercase, match
`^user(\d{1,2})$`, convert the capture to a number, reject outside
[1,99]. -/
def parseUserId (s : String) : Option Nat :=
  matchUser (jsToLower (jsTrim s.data))

/-- Specification-side characterization of acceptance: the trimmed,
lowercased input is literally `user` followed by one or two digit
characters whose value is `n`, with `n` in [1,99]. -/
def userIdSpec (s : String) (n : Nat) : Prop :=
  ∃ ds : List Char,
    jsToLower (jsTrim s.data) = ['u', 's', 'e', 'r'] ++ ds ∧
    1 ≤ ds.length ∧ ds.length ≤ 2 ∧
    (∀ c ∈ ds, c.isDigit) ∧
    n = digitsVal ds ∧ 1 ≤ n ∧ n ≤ 99

/-! ## Client session state and backend interaction model -/

/-- The two module-level mutable variables of app.js:
`let userId = null; let confirmed = false;`. -/
structure ClientState where
  userId : Option Nat
  confirmed : Bool
deriving DecidableEq

/-- Initial client state (`null`, `false`). -/
def initialState : ClientState := ⟨none, false⟩

/-- Result of one `fetch` + `res.json()` pair, as seen by the client:
either the network layer throws (`netFail`, carrying the thrown error's
message — this also covers a body that fails to parse), or a response
arrives with its HTTP `ok` flag, an optional `error` field in the JSON
body, and the rest of the payload. -/
inductive Fetch (α : Type) where
  | netFail (msg : String)
  | resp (ok : Bool) (error : Option String) (payload : α)
deriving DecidableEq

/-- JavaScript `a || b` for a possibly-absent string `a` (as in
`data.error || "Failed to start draft"`): an absent or empty string falls
back to the default. -/
def jsOr (o : Option String) (d : String) : String :=
  match o with
  | some s => if s = "" then d else s
  | none => d

/-- Whether a fetch outcome enters the `catch` branch of the source: the
fetch itself threw, or the response is non-ok (the code then throws
`new Error(data.error || ...)`). -/
def fetchFails {α : Type} : Fetch α → Prop
  | .netFail _ => True
  | .resp ok _ _ => ok = false

instance {α : Type} (f : Fetch α) : Decidable (fetchFails f) := by
  cases f with
  | netFail m => exact isTrue trivial
  | resp ok e p => exact (inferInstance : Decidable (ok = false))

/-! ## confirmUser (draft session client) -/

/-- User-visible outcome of `confirmUser`: the red invalid-username status,
the green confirmed status, or the red failure status from the catch. -/
inductive ConfirmOutcome where
  | invalidUser
  | started (id : Nat)
  | failed (msg : String)
deriving DecidableEq

/-- Result of one `confirmUser` run: the final state, the reported outcome,
and the draft-start requests issued (as `(user_id, table)` pairs). -/
structure ConfirmResult where
  state : ClientState
  outcome : ConfirmOutcome
  draftCalls : List (Nat × Nat)
deriving DecidableEq

/-- Embedding of `confirmUser` (follow-up variant, lines 13–53): parse the
username; on invalid, report and leave state unchanged; otherwise POST
`/api/draft/start` with `{user_id, table}`; on an ok response set
`userId`/`confirmed` and report success; on any throw (network failure or
non-ok response) the `catch` reports failure and mutates nothing. -/
def confirmUser (st : ClientState) (username : String) (tableChoice : Nat)
    (draftRes : Fetch Unit) : ConfirmResult :=
  match parseUserId username with
  | none => ⟨st, .invalidUser, []⟩
  | some id =>
    match draftRes with
    | .netFail m => ⟨st, .failed m, [(id, tableChoice)]⟩
    | .resp ok err _ =>
      if ok then ⟨⟨some id, true⟩, .started id, [(id, tableChoice)]⟩
      else ⟨st, .failed (jsOr err "Failed to start draft"), [(id, tableChoice)]⟩

/-! ## submitForm (ticket submission client) -/

/-- One follow-up question as delivered by `/api/ai/followups`: an id, a
type tag, the question text, and (for multiple choice) an optional list of
choices. `choices = none` models the field being absent (or not an array,
which `Array.isArray` treats the same way). -/
structure Question where
  id : String
  type : String
  question : String
  choices : Option (List String)
deriving DecidableEq

/-- Payload of the `/api/ai/followups` response. -/
structure FollowupData where
  needs_followup : Bool
  questions : List Question
deriving DecidableEq

/-- One outgoing request of `submitForm`, with the body fields the code
serializes. -/
inductive NetCall where
  | followups (user_id : Nat) (title description : String)
  | tickets (user_id : Nat) (title description : String)
  | finalize (user_id : Nat) (answers : List (String × String))
deriving DecidableEq

/-- Whether a call targets `/api/ai/followups`. -/
def isFollowupsCall : NetCall → Bool
  | .followups _ _ _ => true
  | _ => false

/-- Whether a call targets the ticket-creation endpoint `/api/tickets`. -/
def isTicketsCall : NetCall → Bool
  | .tickets _ _ _ => true
  | _ => false

/-- Whether a call targets `/api/ai/finalize`. -/
def isFinalizeCall : NetCall → Bool
  | .finalize _ _ => true
  | _ => false

/-- User-visible outcome of `submitForm`: one of the three validation
alerts, one of the two success alerts, or the catch-all error alert. -/
inductive SubmitOutcome where
  | notConfirmed
  | noInquiry
  | noDesc
  | sent
  | sentAI
  | error (msg : String)
deriving DecidableEq

/-- Result of one `submitForm` run: final state, reported outcome, the
network calls issued in order, and the prompt texts shown in order. -/
structure SubmitResult where
  state : ClientState
  outcome : SubmitOutcome
  calls : List NetCall
  prompts : List String
deriving DecidableEq

/-- Environment of one `submitForm` run: the two form fields read from the
DOM, the backend's response to each endpoint the run may hit, and the
user's reply to the i-th `prompt` (`none` = cancel). -/
structure SubmitEnv where
  inquiry : String
  descRaw : String
  followRes : Fetch FollowupData
  ticketRes : Fetch Unit
  promptAnswers : Nat → Option String
  finRes : Fetch Unit

/-- Assignment `answers[q.id] = v` on a JavaScript object represented as
its ordered key/value entries: an existing key keeps its position and gets
the new value, a fresh key is appended. -/
def objInsert (l : List (String × String)) (k v : String) :
    List (String × String) :=
  if l.any (fun p => p.1 = k) then
    l.map (fun p => if p.1 = k then (k, v) else p)
  else l ++ [(k, v)]

/-- Text passed to `prompt` for one question: multiple-choice questions
with a nonempty choices array show the question plus the enumerated
choices, every other question shows its text alone. -/
def promptText (q : Question) : String :=
  match q.choices with
  | some cs =>
    if q.type = "multiple_choice" ∧ cs ≠ [] then
      q.question ++ "\nValg:\n- " ++ String.intercalate "\n- " cs
    else q.question
  | none => q.question

/-- The `for (const q of followData.questions)` loop: the i-th iteration
shows `promptText q`, coerces a cancelled prompt to `""`
(`prompt(...) || ""`), trims the answer and stores it under `q.id`.
Returns the prompt texts shown and the accumulated answers object. -/
def followLoop (pa : Nat → Option String) :
    List Question → Nat → List (String × String) →
    List String × List (String × String)
  | [], _, acc => ([], acc)
  | q :: rest, i, acc =>
    let ans := jsTrimStr ((pa i).getD "")
    let r := followLoop pa rest (i + 1) (objInsert acc q.id ans)
    (promptText q :: r.1, r.2)

/-- Embedding of `submitForm` (follow-up variant, lines 55–137). Guard on
`!confirmed || !userId`; validate the inquiry select and the trimmed
description; compose title/description; ask `/api/ai/followups`; then
either POST `/api/tickets` directly, or prompt for each question and POST
`/api/ai/finalize`; on success of either path reset `confirmed`/`userId`;
any throw lands in `catch`, which only alerts. -/
def submitForm (st : ClientState) (env : SubmitEnv) : SubmitResult :=
  if st.confirmed = false ∨ st.userId = none ∨ st.userId = some 0 then
    ⟨st, .notConfirmed, [], []⟩
  else if env.inquiry = "" ∨ env.inquiry = "-- Velg --" then
    ⟨st, .noInquiry, [], []⟩
  else if jsTrimStr env.descRaw = "" then
    ⟨st, .noDesc, [], []⟩
  else
    let uid := st.userId.getD 0
    let title := env.inquiry
    let description :=
      "Kategori: " ++ env.inquiry ++ "\n\n" ++ jsTrimStr env.descRaw
    let c1 : NetCall := .followups uid title description
    match env.followRes with
    | .netFail m => ⟨st, .error m, [c1], []⟩
    | .resp fOk fErr fData =>
      if fOk = false then ⟨st, .error (jsOr fErr "Failed followups"), [c1], []⟩
      else if fData.needs_followup = false then
        let c2 : NetCall := .tickets uid title description
        match env.ticketRes with
        | .netFail m => ⟨st, .error m, [c1, c2], []⟩
        | .resp tOk tErr _ =>
          if tOk = false then
            ⟨st, .error (jsOr tErr "Failed to submit ticket"), [c1, c2], []⟩
          else ⟨⟨none, false⟩, .sent, [c1, c2], []⟩
      else
        let r := followLoop env.promptAnswers fData.questions 0 []
        let c3 : NetCall := .finalize uid r.2
        match env.finRes with
        | .netFail m => ⟨st, .error m, [c1, c3], r.1⟩
        | .resp gOk gErr _ =>
          if gOk = false then
            ⟨st, .error (jsOr gErr "Failed finalize"), [c1, c3], r.1⟩
          else ⟨⟨none, false⟩, .sentAI, [c1, c3], r.1⟩

/-! ## Specification-side definitions -/

/-- Specification-side description of the finalize answer mapping when the
question ids are pairwise distinct: one entry per question, in order,
keyed by the question id, holding the trimmed i-th prompt reply (the empty
string when the user cancelled). -/
def answersSpec (pa : Nat → Option String) :
    List Question → Nat → List (String × String)
  | [], _ => []
  | q :: rest, i =>
    (q.id, jsTrimStr ((pa i).getD "")) :: answersSpec pa rest (i + 1)

/-- Session-state invariant of C9: `confirmed` is set exactly when
`userId` holds an integer in [1,99]. -/
def Inv (st : ClientState) : Prop :=
  st.confirmed = true ↔ ∃ n, st.userId = some n ∧ 1 ≤ n ∧ n ≤ 99

/-! ## Concrete fixtures used by witnesses and counterexamples -/

/-- Direct-submission environment: valid fields, no follow-ups needed,
every backend call succeeds. -/
def envDirect : SubmitEnv :=
  { inquiry := "Billing"
    descRaw := "  late fee  "
    followRes := .resp true none ⟨false, []⟩
    ticketRes := .resp true none ()
    promptAnswers := fun _ => some "x"
    finRes := .resp true none () }

/-- Free-text question with id `qa`. -/
def qFree : Question := ⟨"qa", "free_text", "Hvilken konto?", none⟩

/-- Multiple-choice question with id `qb` and two choices. -/
def qChoice : Question := ⟨"qb", "multiple_choice", "Haster det?", some ["ja", "nei"]⟩

/-- Second free-text question sharing id `qa` with qFree. -/
def qDupe : Question := ⟨"qa", "free_text", "Noe mer?", none⟩

/-- Follow-up environment with two distinct-id questions; the first prompt
is cancelled, the second is answered with padding. -/
def envFollow : SubmitEnv :=
  { envDirect with
    followRes := .resp true none ⟨true, [qFree, qChoice]⟩
    promptAnswers := fun i => if i = 0 then none else some " raskt " }

/-- Follow-up environment whose two questions share the id `qa`. -/
def envDupe : SubmitEnv :=
  { envDirect with
    followRes := .resp true none ⟨true, [qFree, qDupe]⟩
    promptAnswers := fun i => if i = 0 then some "first" else some "second" }

/-- Environment whose follow-up determination call fails on the network. -/
def envNetFail : SubmitEnv :=
  { envDirect with followRes := .netFail "nett nede" }

/-! ## Identity parser theorems -/

theorem matchUser_some_iff (cs : List Char) (n : Nat) :
    matchUser cs = some n ↔
      ∃ ds : List Char, cs = ['u', 's', 'e', 'r'] ++ ds ∧
        1 ≤ ds.length ∧ ds.length ≤ 2 ∧ (∀ c ∈ ds, c.isDigit) ∧
        n = digitsVal ds ∧ 1 ≤ n ∧ n ≤ 99 := by
  constructor
  · intro h
    unfold matchUser at h
    split at h
    case isFalse => exact absurd h (by simp)
    case isTrue h4 =>
      split at h
      case isFalse => exact absurd h (by simp)
      case isTrue hds =>
        split at h
        case isTrue => exact absurd h (by simp)
        case isFalse hr =>
          push_neg at hr
          refine ⟨cs.drop 4, ?_, hds.1, hds.2.1, ?_, ?_, ?_, ?_⟩
          · rw [← h4]; exact (List.take_append_drop 4 cs).symm
          · intro c hc
            exact List.all_eq_true.mp hds.2.2 c hc
          · exact ((Option.some.injEq _ _).mp h).symm
          · rw [← (Option.some.injEq _ _).mp h]; exact hr.1
          · rw [← (Option.some.injEq _ _).mp h]; exact hr.2
  · rintro ⟨ds, hcs, h1, h2, hdig, hn, hlo, hhi⟩
    have h4 : cs.take 4 = ['u', 's', 'e', 'r'] := by
      rw [hcs]
      exact List.take_left ['u', 's', 'e', 'r'] ds
    have hdrop : cs.drop 4 = ds := by
      rw [hcs]
      exact List.drop_left ['u', 's', 'e', 'r'] ds
    unfold matchUser
    rw [h4, if_pos rfl, hdrop]
    have hall : ds.all Char.isDigit = true := List.all_eq_true.mpr hdig
    rw [if_pos ⟨h1, h2, hall⟩]
    have : ¬ (digitsVal ds < 1 ∨ 99 < digitsVal ds) := by
      push_neg
      exact ⟨hn ▸ hlo, hn ▸ hhi⟩
    rw [if_neg this, hn]

/-- C1: For every input string s, parseUserId s returns an integer exactly
when s, after trimming whitespace and lowercasing, matches the anchored
pattern `user` followed by 1–2 digits and the parsed integer lies in
[1,99]; in particular `"  User7  "` parses to 7 and `"user100"`,
`"user0"`, `"admin1"`, `"user1x"` are invalid. -/
theorem parseUserId_correct :
    (∀ (s : String) (n : Nat), parseUserId s = some n ↔ userIdSpec s n) ∧
    parseUserId "  User7  " = some 7 ∧
    parseUserId "user100" = none ∧
    parseUserId "user0" = none ∧
    parseUserId "admin1" = none ∧
    parseUserId "user1x" = none :=
  ⟨fun _ n => matchUser_some_iff _ n,
   by decide, by decide, by decide, by decide, by decide⟩

/-- Range of accepted identifiers: whatever `parseUserId` accepts lies in
[1,99]. -/
theorem parseUserId_range (s : String) (n : Nat)
    (h : parseUserId s = some n) : 1 ≤ n ∧ n ≤ 99 := by
  obtain ⟨ds, -, -, -, -, -, h1, h2⟩ := (matchUser_some_iff _ n).mp h
  exact ⟨h1, h2⟩

/-! ## Helper lemmas on the answers object and the follow-up loop -/

theorem keys_map_overwrite (l : List (String × String)) (k v : String) :
    (l.map (fun p => if p.1 = k then (k, v) else p)).map Prod.fst =
      l.map Prod.fst := by
  induction l with
  | nil => rfl
  | cons p t ih =>
    simp only [List.map_cons, ih, List.cons.injEq, and_true]
    by_cases hp : p.1 = k <;> simp [hp]

theorem keys_objInsert (l : List (String × String)) (k v : String) :
    ((objInsert l k v).map Prod.fst = l.map Prod.fst ∧
      k ∈ l.map Prod.fst) ∨
    ((objInsert l k v).map Prod.fst = l.map Prod.fst ++ [k] ∧
      k ∉ l.map Prod.fst) := by
  unfold objInsert
  by_cases h : l.any (fun p => p.1 = k) = true
  · rw [if_pos h]
    refine Or.inl ⟨keys_map_overwrite l k v, ?_⟩
    rw [List.any_eq_true] at h
    obtain ⟨p, hp, he⟩ := h
    exact List.mem_map.mpr ⟨p, hp, of_decide_eq_true he⟩
  · rw [if_neg h]
    refine Or.inr ⟨by simp, fun hk => h ?_⟩
    obtain ⟨p, hp, he⟩ := List.mem_map.mp hk
    exact List.any_eq_true.mpr ⟨p, hp, decide_eq_true he⟩

theorem objInsert_of_fresh (l : List (String × String)) (k v : String)
    (h : k ∉ l.map Prod.fst) : objInsert l k v = l ++ [(k, v)] := by
  unfold objInsert
  rw [if_neg]
  intro hc
  rw [List.any_eq_true] at hc
  obtain ⟨p, hp, he⟩ := hc
  exact h (List.mem_map.mpr ⟨p, hp, of_decide_eq_true he⟩)

theorem nodup_keys_objInsert (l : List (String × String)) (k v : String)
    (h : (l.map Prod.fst).Nodup) :
    ((objInsert l k v).map Prod.fst).Nodup := by
  rcases keys_objInsert l k v with ⟨h1, -⟩ | ⟨h1, h2⟩
  · rw [h1]; exact h
  · rw [h1]
    exact h.append (List.nodup_singleton k) (by simpa using h2)

theorem mem_keys_objInsert (l : List (String × String)) (k v k' : String) :
    k' ∈ (objInsert l k v).map Prod.fst ↔
      k' ∈ l.map Prod.fst ∨ k' = k := by
  rcases keys_objInsert l k v with ⟨h1, h2⟩ | ⟨h1, -⟩
  · rw [h1]
    constructor
    · exact Or.inl
    · rintro (h | rfl)
      · exact h
      · exact h2
  · rw [h1]; simp

theorem followLoop_fst (pa : Nat → Option String) (qs : List Question) :
    ∀ (i : Nat) (acc : List (String × String)),
      (followLoop pa qs i acc).1 = qs.map promptText := by
  induction qs with
  | nil => intro i acc; rfl
  | cons q rest ih => intro i acc; simp [followLoop, ih]

theorem followLoop_keys_nodup (pa : Nat → Option String) (qs : List Question) :
    ∀ (i : Nat) (acc : List (String × String)),
      (acc.map Prod.fst).Nodup →
      (((followLoop pa qs i acc).2).map Prod.fst).Nodup := by
  induction qs with
  | nil => intro i acc h; exact h
  | cons q rest ih =>
    intro i acc h
    exact ih (i + 1) _ (nodup_keys_objInsert _ _ _ h)

theorem followLoop_mem_keys (pa : Nat → Option String) (qs : List Question) :
    ∀ (i : Nat) (acc : List (String × String)) (k : String),
      k ∈ ((followLoop pa qs i acc).2).map Prod.fst ↔
        k ∈ acc.map Prod.fst ∨ k ∈ qs.map Question.id := by
  induction qs with
  | nil => intro i acc k; simp [followLoop]
  | cons q rest ih =>
    intro i acc k
    simp only [followLoop, ih, mem_keys_objInsert, List.map_cons,
      List.mem_cons]
    tauto

theorem followLoop_snd_of_nodup (pa : Nat → Option String)
    (qs : List Question) :
    ∀ (i : Nat) (acc : List (String × String)),
      (qs.map Question.id).Nodup →
      (∀ q ∈ qs, q.id ∉ acc.map Prod.fst) →
      (followLoop pa qs i acc).2 = acc ++ answersSpec pa qs i := by
  induction qs with
  | nil => intro i acc _ _; simp [followLoop, answersSpec]
  | cons q rest ih =>
    intro i acc hnd hdisj
    have hq : q.id ∉ acc.map Prod.fst := hdisj q (List.mem_cons_self q rest)
    have hins :
        objInsert acc q.id (jsTrimStr ((pa i).getD "")) =
          acc ++ [(q.id, jsTrimStr ((pa i).getD ""))] :=
      objInsert_of_fresh _ _ _ hq
    have hx : (∀ x ∈ rest, ¬ x.id = q.id) ∧ (rest.map Question.id).Nodup := by
      simpa using hnd
    have hnd' : (rest.map Question.id).Nodup := hx.2
    have hdisj' : ∀ q' ∈ rest,
        q'.id ∉ (acc ++ [(q.id, jsTrimStr ((pa i).getD ""))]).map Prod.fst := by
      intro q' hq'
      simp only [List.map_append, List.mem_append, List.map_cons,
        List.map_nil, List.mem_singleton]
      rintro (h | h)
      · exact hdisj q' (List.mem_cons_of_mem q hq') h
      · exact hx.1 q' hq' h
    calc (followLoop pa (q :: rest) i acc).2
        = (followLoop pa rest (i + 1)
            (acc ++ [(q.id, jsTrimStr ((pa i).getD ""))])).2 := by
          simp [followLoop, hins]
      _ = (acc ++ [(q.id, jsTrimStr ((pa i).getD ""))]) ++
            answersSpec pa rest (i + 1) := ih (i + 1) _ hnd' hdisj'
      _ = acc ++ answersSpec pa (q :: rest) i := by
          simp [answersSpec]

theorem answersSpec_length (pa : Nat → Option String) (qs : List Question) :
    ∀ i : Nat, (answersSpec pa qs i).length = qs.length := by
  induction qs with
  | nil => intro i; rfl
  | cons q rest ih => intro i; simp [answersSpec, ih]

/-! ## Master case analysis of submitForm -/

theorem submitForm_shape (st : ClientState) (env : SubmitEnv) :
    (submitForm st env).calls.countP isFollowupsCall ≤ 1 ∧
    (submitForm st env).calls.countP isTicketsCall ≤ 1 ∧
    (submitForm st env).calls.countP isFinalizeCall ≤ 1 ∧
    (((submitForm st env).state = st ∧
      (submitForm st env).outcome ≠ SubmitOutcome.sent ∧
      (submitForm st env).outcome ≠ SubmitOutcome.sentAI) ∨
     ((submitForm st env).state = initialState ∧
      ((submitForm st env).outcome = SubmitOutcome.sent ∨
       (submitForm st env).outcome = SubmitOutcome.sentAI))) := by
  by_cases h1 : st.confirmed = false ∨ st.userId = none ∨ st.userId = some 0
  · simp [submitForm, h1]
  · by_cases h2 : env.inquiry = "" ∨ env.inquiry = "-- Velg --"
    · simp [submitForm, h1, h2]
    · by_cases h3 : jsTrimStr env.descRaw = ""
      · simp [submitForm, h1, h2, h3]
      · rcases hf : env.followRes with m | ⟨fOk, fErr, fData⟩
        · simp [submitForm, h1, h2, h3, hf, isFollowupsCall, isTicketsCall,
            isFinalizeCall, List.countP_cons]
        · by_cases h4 : fOk = false
          · simp [submitForm, h1, h2, h3, hf, h4, isFollowupsCall,
              isTicketsCall, isFinalizeCall, List.countP_cons]
          · by_cases h5 : fData.needs_followup = false
            · rcases ht : env.ticketRes with m | ⟨tOk, tErr, tp⟩
              · simp [submitForm, h1, h2, h3, hf, h4, h5, ht,
                  isFollowupsCall, isTicketsCall, isFinalizeCall,
                  List.countP_cons]
              · by_cases h6 : tOk = false <;>
                  simp [submitForm, h1, h2, h3, hf, h4, h5, ht, h6,
                    initialState, isFollowupsCall, isTicketsCall,
                    isFinalizeCall, List.countP_cons]
            · rcases hg : env.finRes with m | ⟨gOk, gErr, gp⟩
              · simp [submitForm, h1, h2, h3, hf, h4, h5, hg,
                  isFollowupsCall, isTicketsCall, isFinalizeCall,
                  List.countP_cons]
              · by_cases h7 : gOk = false <;>
                  simp [submitForm, h1, h2, h3, hf, h4, h5, hg, h7,
                    initialState, isFollowupsCall, isTicketsCall,
                    isFinalizeCall, List.countP_cons]

/-! ## Claim theorems: draft session client -/

/-- C2 counterexample: the claim as stated says that, for every starting
state, any backend failure leaves `confirmed = false` after the operation.
The code's `catch` branch mutates nothing, so starting already confirmed
(userId = 7) and re-confirming with the valid username `user9` against a
network failure leaves `confirmed = true`. -/
theorem confirmUser_failure_keeps_confirmed_cex :
    (confirmUser ⟨some 7, true⟩ "user9" 1
      (Fetch.netFail "nett nede")).state.confirmed = true := by decide

/-- C2 (amended): confirming with a valid username and a structurally
successful (HTTP-ok) draft-start response transitions the state to
`{confirmed := true, userId := parsed id}` with a success report; any
backend failure (network failure or non-ok response) leaves the state
exactly unchanged — in particular, starting from an unconfirmed state,
`confirmed` remains false. -/
theorem confirmUser_state_transitions (st : ClientState) (u : String)
    (tc n : Nat) (h : parseUserId u = some n) :
    (∀ (e : Option String) (p : Unit),
      (confirmUser st u tc (Fetch.resp true e p)).state = ⟨some n, true⟩ ∧
      (confirmUser st u tc (Fetch.resp true e p)).outcome =
        ConfirmOutcome.started n) ∧
    (∀ res : Fetch Unit, fetchFails res →
      (confirmUser st u tc res).state = st) ∧
    (st.confirmed = false → ∀ res : Fetch Unit, fetchFails res →
      (confirmUser st u tc res).state.confirmed = false) := by
  have hfail : ∀ res : Fetch Unit, fetchFails res →
      (confirmUser st u tc res).state = st := by
    intro res hres
    cases res with
    | netFail m => simp [confirmUser, h]
    | resp ok err p =>
      have hok : ok = false := hres
      simp [confirmUser, h, hok]
  refine ⟨fun e p => ?_, hfail, fun hconf res hres => ?_⟩
  · constructor <;> simp [confirmUser, h]
  · rw [hfail res hres]; exact hconf

/-- C2 witness at a concrete input: user7 confirms against an ok response;
a network failure leaves the initial state untouched. -/
theorem confirmUser_state_transitions_witness :
    (confirmUser initialState "user7" 1
      (Fetch.resp true none ())).state = ⟨some 7, true⟩ ∧
    (confirmUser initialState "user7" 1
      (Fetch.netFail "x")).state = initialState :=
  ⟨((confirmUser_state_transitions initialState "user7" 1 7
      (by decide)).1 none ()).1,
   (confirmUser_state_transitions initialState "user7" 1 7
      (by decide)).2.1 _ trivial⟩

/-! ## Claim theorems: ticket submission client -/

/-- C3: after every successful submission path (direct ticket creation or
follow-up finalization) the client state is reset to
`{confirmed := false, userId := null}`, and from that state any further
submission attempt is rejected with the confirm-first alert and performs
zero network calls. -/
theorem submitForm_success_resets (st : ClientState) (env : SubmitEnv)
    (h : (submitForm st env).outcome = SubmitOutcome.sent ∨
      (submitForm st env).outcome = SubmitOutcome.sentAI) :
    (submitForm st env).state = initialState ∧
    ∀ env2 : SubmitEnv,
      submitForm (submitForm st env).state env2 =
        ⟨initialState, SubmitOutcome.notConfirmed, [], []⟩ := by
  have hs : (submitForm st env).state = initialState := by
    rcases (submitForm_shape st env).2.2.2 with ⟨-, h1, h2⟩ | ⟨h1, -⟩
    · rcases h with h | h
      · exact absurd h h1
      · exact absurd h h2
    · exact h1
  refine ⟨hs, fun env2 => ?_⟩
  rw [hs]
  simp [submitForm, initialState]

/-- C3 witness: a concrete successful direct submission resets the state
and blocks the next submission. -/
theorem submitForm_success_resets_witness :
    (submitForm ⟨some 7, true⟩ envDirect).state = initialState ∧
    ∀ env2 : SubmitEnv,
      submitForm (submitForm ⟨some 7, true⟩ envDirect).state env2 =
        ⟨initialState, SubmitOutcome.notConfirmed, [], []⟩ :=
  submitForm_success_resets ⟨some 7, true⟩ envDirect (Or.inl (by decide))

/-- C4: when the client is not confirmed, or the inquiry is empty or the
placeholder `-- Velg --`, or the description trims to empty, `submitForm`
aborts with one of the three validation alerts, performs zero network
calls, shows zero prompts, and leaves the state unchanged. -/
theorem submitForm_validation_no_call (st : ClientState) (env : SubmitEnv)
    (h : st.confirmed = false ∨ env.inquiry = "" ∨
      env.inquiry = "-- Velg --" ∨ jsTrimStr env.descRaw = "") :
    (submitForm st env).calls = [] ∧
    (submitForm st env).prompts = [] ∧
    (submitForm st env).state = st ∧
    ((submitForm st env).outcome = SubmitOutcome.notConfirmed ∨
     (submitForm st env).outcome = SubmitOutcome.noInquiry ∨
     (submitForm st env).outcome = SubmitOutcome.noDesc) := by
  by_cases h1 : st.confirmed = false ∨ st.userId = none ∨ st.userId = some 0
  · simp [submitForm, h1]
  · have hc : ¬ st.confirmed = false := fun hcf => h1 (Or.inl hcf)
    by_cases h2 : env.inquiry = "" ∨ env.inquiry = "-- Velg --"
    · simp [submitForm, h1, h2]
    · have h3 : jsTrimStr env.descRaw = "" := by
        rcases h with h | h | h | h
        · exact absurd h hc
        · exact absurd (Or.inl h) h2
        · exact absurd (Or.inr h) h2
        · exact h
      simp [submitForm, h1, h2, h3]

/-- C4 witness: an unconfirmed client's submission is rejected without any
network call. -/
theorem submitForm_validation_no_call_witness :
    (submitForm initialState envDirect).calls = [] ∧
    (submitForm initialState envDirect).prompts = [] ∧
    (submitForm initialState envDirect).state = initialState ∧
    ((submitForm initialState envDirect).outcome =
        SubmitOutcome.notConfirmed ∨
     (submitForm initialState envDirect).outcome =
        SubmitOutcome.noInquiry ∨
     (submitForm initialState envDirect).outcome = SubmitOutcome.noDesc) :=
  submitForm_validation_no_call initialState envDirect (Or.inl rfl)

/-- C5 counterexample: the claim as stated says the finalize request's
answer mapping always has exactly N entries for N questions. The answers
are stored in one JavaScript object keyed by `q.id`, so two questions
sharing an id collapse into a single entry: with the two questions of
envDupe (both with id `qa`), two prompts are shown but the finalize body
carries one entry, holding the later answer. -/
theorem submitForm_followup_answers_cex :
    (submitForm ⟨some 7, true⟩ envDupe).prompts.length = 2 ∧
    (submitForm ⟨some 7, true⟩ envDupe).calls =
      [NetCall.followups 7 "Billing" "Kategori: Billing\n\nlate fee",
       NetCall.finalize 7 [("qa", "second")]] := by decide

/-- C5 (amended): with `needs_followup` true and N questions, exactly N
prompts are shown, one per question in the order received (each rendered
by promptText, which appends the enumerated choices for multiple-choice
questions with choices present); a cancelled prompt yields an empty-string
answer; and the finalize request's answer mapping has exactly one entry
per distinct question id, holding trimmed answer values — when the ids are
pairwise distinct this is exactly N entries, the i-th keyed by the i-th
question's id and holding the trimmed i-th reply (empty on cancel), as
answersSpec states. -/
theorem submitForm_followup_prompts_and_answers (st : ClientState)
    (env : SubmitEnv) (u : Nat) (e : Option String) (fd : FollowupData)
    (hc : st.confirmed = true) (hu : st.userId = some u) (hu0 : u ≠ 0)
    (hi1 : ¬ env.inquiry = "") (hi2 : ¬ env.inquiry = "-- Velg --")
    (hd : ¬ jsTrimStr env.descRaw = "")
    (hf : env.followRes = Fetch.resp true e fd)
    (hnf : fd.needs_followup = true) :
    (submitForm st env).prompts = fd.questions.map promptText ∧
    (submitForm st env).prompts.length = fd.questions.length ∧
    (submitForm st env).calls =
      [NetCall.followups u env.inquiry
        ("Kategori: " ++ env.inquiry ++ "\n\n" ++ jsTrimStr env.descRaw),
       NetCall.finalize u
        (followLoop env.promptAnswers fd.questions 0 []).2] ∧
    (((followLoop env.promptAnswers fd.questions 0 []).2.map
        Prod.fst).Nodup) ∧
    (∀ k : String,
      k ∈ (followLoop env.promptAnswers fd.questions 0 []).2.map Prod.fst ↔
        k ∈ fd.questions.map Question.id) ∧
    ((fd.questions.map Question.id).Nodup →
      (followLoop env.promptAnswers fd.questions 0 []).2 =
        answersSpec env.promptAnswers fd.questions 0 ∧
      (followLoop env.promptAnswers fd.questions 0 []).2.length =
        fd.questions.length) := by
  have hg : ¬ (st.confirmed = false ∨ st.userId = none ∨
      st.userId = some 0) := by
    simp [hc, hu, hu0]
  have hcalls :
      (submitForm st env).prompts = fd.questions.map promptText ∧
      (submitForm st env).calls =
        [NetCall.followups u env.inquiry
          ("Kategori: " ++ env.inquiry ++ "\n\n" ++ jsTrimStr env.descRaw),
         NetCall.finalize u
          (followLoop env.promptAnswers fd.questions 0 []).2] := by
    rcases hfin : env.finRes with m | ⟨gOk, gErr, gp⟩
    · constructor <;>
        simp [submitForm, hc, hu0, hi1, hi2, hd, hf, hnf, hfin, hu,
          followLoop_fst]
    · by_cases h7 : gOk = false <;> constructor <;>
        simp [submitForm, hc, hu0, hi1, hi2, hd, hf, hnf, hfin, h7, hu,
          followLoop_fst]
  refine ⟨hcalls.1, ?_, hcalls.2, ?_, ?_, ?_⟩
  · rw [hcalls.1]; simp
  · exact followLoop_keys_nodup env.promptAnswers fd.questions 0 []
      (by simp)
  · intro k
    rw [followLoop_mem_keys]
    simp
  · intro hnd
    have hmain := followLoop_snd_of_nodup env.promptAnswers fd.questions 0 []
      hnd (by simp)
    simp only [List.nil_append] at hmain
    exact ⟨hmain, by rw [hmain]; exact answersSpec_length _ _ 0⟩

/-- C5 witness: two distinct-id questions (one free text, one multiple
choice); the first prompt is cancelled, the second answered with padding;
two prompts are shown and the finalize mapping has two trimmed entries. -/
theorem submitForm_followup_prompts_and_answers_witness :
    (submitForm ⟨some 7, true⟩ envFollow).prompts =
      ["Hvilken konto?", "Haster det?\nValg:\n- ja\n- nei"] ∧
    (submitForm ⟨some 7, true⟩ envFollow).calls =
      [NetCall.followups 7 "Billing" "Kategori: Billing\n\nlate fee",
       NetCall.finalize 7 [("qa", ""), ("qb", "raskt")]] := by
  have h := submitForm_followup_prompts_and_answers ⟨some 7, true⟩
    envFollow 7 none ⟨true, [qFree, qChoice]⟩ rfl rfl (by decide)
    (by decide) (by decide) (by decide) rfl rfl
  exact ⟨by rw [h.1]; decide, by rw [h.2.2.1]; decide⟩

/-- C6: when the follow-up determination response arrives ok with
`needs_followup = false`, the run issues the follow-up determination call
and then exactly one call to the ticket-creation endpoint `/api/tickets`
carrying `{user_id, title, description}`, and shows zero prompts —
whatever the ticket endpoint then answers. -/
theorem submitForm_direct_single_ticket_call (st : ClientState)
    (env : SubmitEnv) (u : Nat) (e : Option String) (fd : FollowupData)
    (hc : st.confirmed = true) (hu : st.userId = some u) (hu0 : u ≠ 0)
    (hi1 : ¬ env.inquiry = "") (hi2 : ¬ env.inquiry = "-- Velg --")
    (hd : ¬ jsTrimStr env.descRaw = "")
    (hf : env.followRes = Fetch.resp true e fd)
    (hnf : fd.needs_followup = false) :
    (submitForm st env).prompts = [] ∧
    (submitForm st env).calls.countP isTicketsCall = 1 ∧
    (submitForm st env).calls =
      [NetCall.followups u env.inquiry
        ("Kategori: " ++ env.inquiry ++ "\n\n" ++ jsTrimStr env.descRaw),
       NetCall.tickets u env.inquiry
        ("Kategori: " ++ env.inquiry ++ "\n\n" ++ jsTrimStr env.descRaw)] := by
  have hg : ¬ (st.confirmed = false ∨ st.userId = none ∨
      st.userId = some 0) := by
    simp [hc, hu, hu0]
  rcases ht : env.ticketRes with m | ⟨tOk, tErr, tp⟩
  · refine ⟨?_, ?_, ?_⟩ <;>
      simp [submitForm, hc, hu0, hi1, hi2, hd, hf, hnf, ht, hu,
        isTicketsCall, isFollowupsCall, List.countP_cons]
  · by_cases h6 : tOk = false <;> refine ⟨?_, ?_, ?_⟩ <;>
      simp [submitForm, hc, hu0, hi1, hi2, hd, hf, hnf, ht, h6, hu,
        isTicketsCall, isFollowupsCall, List.countP_cons]

/-- C6 witness: the concrete direct submission of envDirect issues the
follow-up determination call and one ticket-creation call and shows no
prompt. -/
theorem submitForm_direct_single_ticket_call_witness :
    (submitForm ⟨some 7, true⟩ envDirect).prompts = [] ∧
    (submitForm ⟨some 7, true⟩ envDirect).calls.countP isTicketsCall = 1 ∧
    (submitForm ⟨some 7, true⟩ envDirect).calls =
      [NetCall.followups 7 "Billing" "Kategori: Billing\n\nlate fee",
       NetCall.tickets 7 "Billing" "Kategori: Billing\n\nlate fee"] := by
  have h := submitForm_direct_single_ticket_call ⟨some 7, true⟩ envDirect
    7 none ⟨false, []⟩ rfl rfl (by decide) (by decide) (by decide)
    (by decide) rfl rfl
  exact ⟨h.1, h.2.1, by rw [h.2.2]; decide⟩

/-- C7: every submission that passes validation composes
`title = inquiry` and
`description = "Kategori: " ++ inquiry ++ "\n\n" ++ trim(desc)`: the first
network call is the follow-up determination call carrying exactly those
fields, and any ticket-creation call of the run carries them as well. -/
theorem submitForm_composes_fields (st : ClientState) (env : SubmitEnv)
    (u : Nat)
    (hc : st.confirmed = true) (hu : st.userId = some u) (hu0 : u ≠ 0)
    (hi1 : ¬ env.inquiry = "") (hi2 : ¬ env.inquiry = "-- Velg --")
    (hd : ¬ jsTrimStr env.descRaw = "") :
    (submitForm st env).calls.head? =
      some (NetCall.followups u env.inquiry
        ("Kategori: " ++ env.inquiry ++ "\n\n" ++ jsTrimStr env.descRaw)) ∧
    (∀ (u' : Nat) (t d : String),
      NetCall.tickets u' t d ∈ (submitForm st env).calls →
        t = env.inquiry ∧
        d = "Kategori: " ++ env.inquiry ++ "\n\n" ++ jsTrimStr env.descRaw) := by
  have hg : ¬ (st.confirmed = false ∨ st.userId = none ∨
      st.userId = some 0) := by
    simp [hc, hu, hu0]
  rcases hf : env.followRes with m | ⟨fOk, fErr, fData⟩
  · constructor <;> simp [submitForm, hc, hu0, hi1, hi2, hd, hf, hu]
  · by_cases h4 : fOk = false
    · constructor <;> simp [submitForm, hc, hu0, hi1, hi2, hd, hf, h4, hu]
    · by_cases h5 : fData.needs_followup = false
      · rcases ht : env.ticketRes with m | ⟨tOk, tErr, tp⟩
        · constructor <;>
            simp [submitForm, hc, hu0, hi1, hi2, hd, hf, h4, h5, ht, hu]
        · by_cases h6 : tOk = false <;> constructor <;>
            simp [submitForm, hc, hu0, hi1, hi2, hd, hf, h4, h5, ht, h6, hu]
      · rcases hfin : env.finRes with m | ⟨gOk, gErr, gp⟩
        · constructor <;>
            simp [submitForm, hc, hu0, hi1, hi2, hd, hf, h4, h5, hfin, hu]
        · by_cases h7 : gOk = false <;> constructor <;>
            simp [submitForm, hc, hu0, hi1, hi2, hd, hf, h4, h5, hfin, h7,
              hu]

/-- C7 witness: inquiry Billing with description `late fee` composes the
description `Kategori: Billing\n\nlate fee` on the first call, and every
ticket-creation call carries it. -/
theorem submitForm_composes_fields_witness :
    (submitForm ⟨some 7, true⟩ envDirect).calls.head? =
      some (NetCall.followups 7 "Billing" "Kategori: Billing\n\nlate fee") ∧
    (∀ (u' : Nat) (t d : String),
      NetCall.tickets u' t d ∈ (submitForm ⟨some 7, true⟩ envDirect).calls →
        t = "Billing" ∧ d = "Kategori: Billing\n\nlate fee") := by
  have h := submitForm_composes_fields ⟨some 7, true⟩ envDirect 7 rfl rfl
    (by decide) (by decide) (by decide) (by decide)
  refine ⟨by rw [h.1]; decide, fun u' t d hm => ?_⟩
  have := h.2 u' t d hm
  refine ⟨this.1.trans (by decide), this.2.trans (by decide)⟩

/-- C8: if any step of a validated submission throws (network failure, or
a non-ok response at the follow-up determination, ticket-creation or
finalize endpoint), the run reports an error alert, the session state is
exactly what it was when submitForm began, and no endpoint is called more
than once (no retry). -/
theorem submitForm_exception_aborts (st : ClientState) (env : SubmitEnv)
    (u : Nat)
    (hc : st.confirmed = true) (hu : st.userId = some u) (hu0 : u ≠ 0)
    (hi1 : ¬ env.inquiry = "") (hi2 : ¬ env.inquiry = "-- Velg --")
    (hd : ¬ jsTrimStr env.descRaw = "")
    (hex : fetchFails env.followRes ∨
      ∃ (e : Option String) (fd : FollowupData),
        env.followRes = Fetch.resp true e fd ∧
        ((fd.needs_followup = false ∧ fetchFails env.ticketRes) ∨
         (fd.needs_followup = true ∧ fetchFails env.finRes))) :
    (∃ m : String, (submitForm st env).outcome = SubmitOutcome.error m) ∧
    (submitForm st env).state = st ∧
    (submitForm st env).calls.countP isFollowupsCall ≤ 1 ∧
    (submitForm st env).calls.countP isTicketsCall ≤ 1 ∧
    (submitForm st env).calls.countP isFinalizeCall ≤ 1 := by
  have hcounts := submitForm_shape st env
  refine ⟨?_, ?_, hcounts.1, hcounts.2.1, hcounts.2.2.1⟩
  · rcases hex with hfail | ⟨e, fd, hf, hrest⟩
    · rcases henv : env.followRes with m | ⟨fOk, fErr, fData⟩
      · exact ⟨m, by simp [submitForm, hc, hu0, hi1, hi2, hd, henv, hu]⟩
      · rw [henv] at hfail
        have h4 : fOk = false := hfail
        exact ⟨jsOr fErr "Failed followups",
          by simp [submitForm, hc, hu0, hi1, hi2, hd, henv, h4, hu]⟩
    · rcases hrest with ⟨hnf, ht⟩ | ⟨hnf, hfin⟩
      · rcases henvT : env.ticketRes with m | ⟨tOk, tErr, tp⟩
        · exact ⟨m, by
            simp [submitForm, hc, hu0, hi1, hi2, hd, hf, hnf, henvT, hu]⟩
        · rw [henvT] at ht
          have h6 : tOk = false := ht
          exact ⟨jsOr tErr "Failed to submit ticket", by
            simp [submitForm, hc, hu0, hi1, hi2, hd, hf, hnf, henvT, h6, hu]⟩
      · rcases henvF : env.finRes with m | ⟨gOk, gErr, gp⟩
        · exact ⟨m, by
            simp [submitForm, hc, hu0, hi1, hi2, hd, hf, hnf, henvF, hu]⟩
        · rw [henvF] at hfin
          have h7 : gOk = false := hfin
          exact ⟨jsOr gErr "Failed finalize", by
            simp [submitForm, hc, hu0, hi1, hi2, hd, hf, hnf, henvF, h7, hu]⟩
  · rcases (submitForm_shape st env).2.2.2 with ⟨h1, -, -⟩ | ⟨-, h1 | h1⟩
    · exact h1
    all_goals
      exfalso
      rcases hex with hfail | ⟨e, fd, hf, hrest⟩
      all_goals
        first
        | (rcases henv : env.followRes with m | ⟨fOk, fErr, fData⟩
           · simp [submitForm, hc, hu0, hi1, hi2, hd, henv, hu] at h1
           · rw [henv] at hfail
             have h4 : fOk = false := hfail
             simp [submitForm, hc, hu0, hi1, hi2, hd, henv, h4, hu] at h1)
        | (rcases hrest with ⟨hnf, ht⟩ | ⟨hnf, hfin⟩
           · rcases henvT : env.ticketRes with m | ⟨tOk, tErr, tp⟩
             · simp [submitForm, hc, hu0, hi1, hi2, hd, hf, hnf, henvT,
                 hu] at h1
             · rw [henvT] at ht
               have h6 : tOk = false := ht
               simp [submitForm, hc, hu0, hi1, hi2, hd, hf, hnf, henvT,
                 h6, hu] at h1
           · rcases henvF : env.finRes with m | ⟨gOk, gErr, gp⟩
             · simp [submitForm, hc, hu0, hi1, hi2, hd, hf, hnf, henvF,
                 hu] at h1
             · rw [henvF] at hfin
               have h7 : gOk = false := hfin
               simp [submitForm, hc, hu0, hi1, hi2, hd, hf, hnf, henvF,
                 h7, hu] at h1)

/-- C8 witness: a validated submission whose follow-up determination call
fails on the network reports an error, leaves the state as it was, and
calls no endpoint twice. -/
theorem submitForm_exception_aborts_witness :
    (∃ m : String,
      (submitForm ⟨some 7, true⟩ envNetFail).outcome =
        SubmitOutcome.error m) ∧
    (submitForm ⟨some 7, true⟩ envNetFail).state = ⟨some 7, true⟩ ∧
    (submitForm ⟨some 7, true⟩ envNetFail).calls.countP
      isFollowupsCall ≤ 1 ∧
    (submitForm ⟨some 7, true⟩ envNetFail).calls.countP isTicketsCall ≤ 1 ∧
    (submitForm ⟨some 7, true⟩ envNetFail).calls.countP isFinalizeCall ≤ 1 :=
  submitForm_exception_aborts ⟨some 7, true⟩ envNetFail 7 rfl rfl
    (by decide) (by decide) (by decide) (by decide) (Or.inl trivial)

/-- C9: the session-state invariant — `confirmed = true` exactly when
`userId` holds an integer in [1,99] — holds in the initial state and is
preserved by every complete run of confirmUser and of submitForm (the two
variables are only ever assigned together: both set on confirm success,
both cleared on submit success, untouched otherwise). -/
theorem session_state_invariant :
    Inv initialState ∧
    (∀ (st : ClientState) (u : String) (tc : Nat) (res : Fetch Unit),
      Inv st → Inv ((confirmUser st u tc res).state)) ∧
    (∀ (st : ClientState) (env : SubmitEnv),
      Inv st → Inv ((submitForm st env).state)) := by
  refine ⟨by simp [Inv, initialState], ?_, ?_⟩
  · intro st u tc res hst
    rcases hp : parseUserId u with - | n
    · simpa [confirmUser, hp] using hst
    · rcases res with m | ⟨ok, err, p⟩
      · simpa [confirmUser, hp] using hst
      · cases ok with
        | false => simpa [confirmUser, hp] using hst
        | true =>
          have hr := parseUserId_range u n hp
          simp [confirmUser, hp, Inv]
          exact ⟨hr.1, hr.2⟩
  · intro st env hst
    rcases (submitForm_shape st env).2.2.2 with ⟨h1, -, -⟩ | ⟨h1, -⟩
    · rwa [h1]
    · rw [h1]; simp [Inv, initialState]

/-- C9 witness: the invariant holds initially, after a concrete successful
confirm, and after a concrete submission from the confirmed state. -/
theorem session_state_invariant_witness :
    Inv ((confirmUser initialState "user7" 1
      (Fetch.resp true none ())).state) ∧
    Inv ((submitForm ⟨some 7, true⟩ envDirect).state) :=
  ⟨session_state_invariant.2.1 initialState "user7" 1 _
    (by simp [Inv, initialState]),
   session_state_invariant.2.2 ⟨some 7, true⟩ envDirect
    (by simp [Inv])⟩

/-- C10: a question of type multiple_choice whose choices field is absent
or an empty list is prompted with the question text alone, exactly like a
free_text question with the same text, and the follow-up loop shows that
plain text as its prompt. -/
theorem promptText_missing_choices_plain (q : Question)
    (h : q.choices = none ∨ q.choices = some []) :
    promptText q = q.question ∧
    promptText ⟨q.id, "free_text", q.question, q.choices⟩ = q.question ∧
    (∀ (pa : Nat → Option String) (i : Nat) (rest : List Question)
      (acc : List (String × String)),
      (followLoop pa (q :: rest) i acc).1.head? = some q.question) := by
  have h1 : promptText q = q.question := by
    rcases h with h | h <;> simp [promptText, h]
  refine ⟨h1, ?_, ?_⟩
  · rcases h with h | h <;> simp [promptText, h]
  · intro pa i rest acc
    simp [followLoop, h1]

/-- C10 witness: a concrete multiple_choice question without choices is
prompted with its bare text. -/
theorem promptText_missing_choices_plain_witness :
    promptText ⟨"qz", "multiple_choice", "Hvor skjedde det?", none⟩ =
      "Hvor skjedde det?" :=
  (promptText_missing_choices_plain
    ⟨"qz", "multiple_choice", "Hvor skjedde det?", none⟩ (Or.inl rfl)).1

end TicketForm
